import Mathlib

/-!
Shallow embedding of the seedmart-backend market service and routes
(src/services/market.py, src/routes/api.py, src/routes/auth.py).

Numbers: Python floats are idealized as rationals (ℚ); `round(x, n)` is
idealized as rounding `x * 10^n` to the nearest integer and dividing back.
Timestamps (`datetime`) are idealized as integer seconds; `timedelta(days=d)`
is `d * 86400` seconds.  The random source is made explicit: every function
that draws from `random` takes the drawn values as parameters.

The ORM model classes (models/models.py) are not part of the given sources;
the record shapes below are modelled from the spec's data-model section
(Seed: id, name, species, quantity, current price, description;
PriceObservation: seed reference, price with 2-place decimal precision,
integer volume, recorded timestamp; User: id, unique username, unique email,
password hash, name fields).  The `seed_price` table is created with
`price NUMERIC(10, 2)` in create_test_price_data.py, so a stored price is
always an exact multiple of 0.01.
-/

namespace SeedMart

/-- Modelled from the spec: the Seed row (models/models.py is absent from the
sources).  `price` is nullable: POST /seeds uses `data.get('price')`, which
yields None when the key is missing. -/
structure Seed where
  id : Nat
  name : String
  species : Option String
  quantity : Int
  price : Option ℚ
  description : Option String
deriving DecidableEq, Repr

/-- Modelled from the spec: one row of the append-only `seed_price` table
(seed reference, 2-place decimal price, integer volume, recorded timestamp). -/
structure SeedPrice where
  seed_id : Nat
  price : ℚ
  volume : Int
  recorded_at : Int
deriving DecidableEq, Repr

/-- Modelled from the spec: a User row (id, username, email, password hash,
name fields). -/
structure User where
  id : Nat
  username : String
  email : String
  password_hash : String
  first_name : String
  last_name : String
deriving DecidableEq, Repr

/-- The relational state the routes and the market service act on. -/
structure DB where
  seeds : List Seed
  prices : List SeedPrice
  users : List User
deriving DecidableEq, Repr

/-- Idealization of Python `round(x, 2)` over ℚ. -/
def round2 (q : ℚ) : ℚ := ((round (q * 100) : ℤ) : ℚ) / 100

/-- Idealization of Python `round(x, 1)` over ℚ. -/
def round1 (q : ℚ) : ℚ := ((round (q * 10) : ℤ) : ℚ) / 10

/-- `MarketService.calculate_base_price`: `round(random.uniform(1, 6), 2)`.
The uniform draw in [1, 6] is the explicit argument `u`. -/
def calculate_base_price (u : ℚ) : ℚ := round2 u

/-- `MarketService.calculate_price_change`.  `r1` is the draw deciding the
trend (`random.random() > 0.5`), `r2` the draw entering the change term. -/
def calculate_price_change (current_price r1 r2 volatility : ℚ) : ℚ :=
  let trend : ℚ := if 1/2 < r1 then 1 else -1
  let change := (r2 - 1/2) * volatility + trend * (2/100)
  round2 (max (1/5) (current_price + current_price * change))

/-- Ascending order on observations by recorded timestamp
(`order_by(SeedPrice.recorded_at)`). -/
def byTimeAsc (a b : SeedPrice) : Prop := a.recorded_at ≤ b.recorded_at

/-- Descending order on observations by recorded timestamp
(`order_by(SeedPrice.recorded_at.desc())`). -/
def byTimeDesc (a b : SeedPrice) : Prop := b.recorded_at ≤ a.recorded_at

instance : DecidableRel byTimeAsc := fun a b => Int.decLe a.recorded_at b.recorded_at

instance : DecidableRel byTimeDesc := fun a b => Int.decLe b.recorded_at a.recorded_at

instance : IsTotal SeedPrice byTimeAsc := ⟨fun a b => Int.le_total a.recorded_at b.recorded_at⟩

instance : IsTotal SeedPrice byTimeDesc := ⟨fun a b => Int.le_total b.recorded_at a.recorded_at⟩

instance : IsTrans SeedPrice byTimeAsc := ⟨fun _ _ _ h1 h2 => Int.le_trans h1 h2⟩

instance : IsTrans SeedPrice byTimeDesc := ⟨fun _ _ _ h1 h2 => Int.le_trans h2 h1⟩

/-- `SeedPrice.query.filter_by(seed_id=sid)`: all observations of one seed,
in insertion order. -/
def pricesFor (db : DB) (sid : Nat) : List SeedPrice :=
  db.prices.filter (fun p => p.seed_id == sid)

/-- The observations of one seed ordered by `recorded_at.desc()`. -/
def sortedDesc (db : DB) (sid : Nat) : List SeedPrice :=
  (pricesFor db sid).insertionSort byTimeDesc

/-- `...order_by(SeedPrice.recorded_at.desc()).first()`. -/
def latestPrice (db : DB) (sid : Nat) : Option SeedPrice :=
  (sortedDesc db sid).head?

/-- `...order_by(SeedPrice.recorded_at.desc()).offset(1).first()`. -/
def previousPrice (db : DB) (sid : Nat) : Option SeedPrice :=
  (sortedDesc db sid).get? 1

/-- `Seed.query.get(sid)`: primary-key lookup. -/
def findSeed (db : DB) (sid : Nat) : Option Seed :=
  db.seeds.find? (fun s => s.id == sid)

/-- One element of the `summaries` list built by
`MarketService.get_market_summary`. -/
structure SeedSummary where
  id : Nat
  name : String
  species : Option String
  currentPrice : ℚ
  previousPrice : ℚ
  change : ℚ
  changePercent : ℚ
  volume : Int
  description : Option String
deriving DecidableEq, Repr

/-- The `marketStats` object of the summary payload. -/
structure MarketStats where
  totalVolume : Int
  marketCap : ℚ
  seedCount : Nat
deriving DecidableEq, Repr

/-- The payload of `MarketService.get_market_summary`. -/
structure MarketSummary where
  seeds : List SeedSummary
  marketStats : MarketStats
deriving DecidableEq, Repr

/-- The per-seed body of the loop in `MarketService.get_market_summary`:
a summary is appended exactly when the seed has a latest observation. -/
def summaryEntry (db : DB) (seed : Seed) : Option SeedSummary :=
  match latestPrice db seed.id with
  | none => none
  | some latest_price =>
    let current_price := latest_price.price
    let previous_price_value := ((previousPrice db seed.id).map SeedPrice.price).getD current_price
    let change := round2 (current_price - previous_price_value)
    let change_percent :=
      if 0 < previous_price_value then round1 (change / previous_price_value * 100) else 0
    some { id := seed.id
           name := seed.name
           species := seed.species
           currentPrice := current_price
           previousPrice := previous_price_value
           change := change
           changePercent := change_percent
           volume := latest_price.volume
           description := seed.description }

/-- `MarketService.get_market_summary`: the loop appends one summary per seed
that has a latest observation and accumulates `total_volume` and `market_cap`
over exactly those iterations. -/
def get_market_summary (db : DB) : MarketSummary :=
  let summaries := db.seeds.filterMap (summaryEntry db)
  { seeds := summaries
    marketStats :=
      { totalVolume := (summaries.map (fun e => e.volume)).sum
        marketCap := (summaries.map (fun e => e.currentPrice * 1000)).sum
        seedCount := db.seeds.length } }

/-- The `timeframe_days` dictionary together with `.get(timeframe, 7)`. -/
def timeframe_days (timeframe : String) : Nat :=
  if timeframe = "1d" then 1
  else if timeframe = "1w" then 7
  else if timeframe = "1m" then 30
  else if timeframe = "3m" then 90
  else if timeframe = "1y" then 365
  else 7

/-- One day of `timedelta(days=1)`, in the integer-seconds time model. -/
def secondsPerDay : Int := 86400

/-- The random draws consumed when `get_price_history` synthesizes a
placeholder observation: `u` is the uniform [1, 6] draw feeding
`calculate_base_price`, `vol` the `random.randint(500, 1000)` draw. -/
structure SynthDraws where
  u : ℚ
  vol : Int
deriving DecidableEq, Repr

/-- The primary query of `MarketService.get_price_history`: observations of
the seed with `recorded_at >= cutoff_date`, ordered by `recorded_at`. -/
def matchingPrices (db : DB) (now : Int) (seed_id : Nat) (timeframe : String) : List SeedPrice :=
  let cutoff_date := now - (timeframe_days timeframe : Int) * secondsPerDay
  (db.prices.filter
      (fun p => p.seed_id == seed_id && decide (cutoff_date ≤ p.recorded_at))).insertionSort
    byTimeAsc

/-- The price of the synthesized placeholder observation:
`seed.price or MarketService.calculate_base_price()`.  Python `or` takes the
right operand when `seed.price` is falsy, i.e. when it is None or 0. -/
def synthPrice (seed : Seed) (u : ℚ) : ℚ :=
  match seed.price with
  | none => calculate_base_price u
  | some v => if v = 0 then calculate_base_price u else v

/-- `MarketService.get_price_history` (the exception-free path: the
SQLAlchemy query succeeds, so the psycopg2 fallback is never reached).
Returns the result list together with the possibly-updated state. -/
def get_price_history (db : DB) (now : Int) (d : SynthDraws) (seed_id : Nat)
    (timeframe : String) : List SeedPrice × DB :=
  match findSeed db seed_id with
  | none => ([], db)
  | some seed =>
    let prices := matchingPrices db now seed_id timeframe
    if prices.isEmpty then
      let new_price : SeedPrice :=
        { seed_id := seed_id
          price := synthPrice seed d.u
          volume := d.vol
          recorded_at := now }
      ([new_price], { db with prices := db.prices ++ [new_price] })
    else
      (prices, db)

/-- Body of a JSON response of the seed-price routes. -/
inductive ApiBody where
  | rows (l : List SeedPrice)
  | errorMsg (msg : String)
deriving DecidableEq, Repr

/-- An HTTP response: status code plus JSON body. -/
structure ApiResponse where
  status : Nat
  body : ApiBody
deriving DecidableEq, Repr

/-- The `GET /seeds/<seed_id>/prices` handler (`get_seed_prices` in
src/routes/api.py, exception-free path): reads the `timeframe` query
argument with default `'1w'` and always answers 200, with an empty JSON
array when the service returned nothing. -/
def get_seed_prices (db : DB) (now : Int) (d : SynthDraws) (seed_id : Nat)
    (timeframeArg : Option String) : ApiResponse × DB :=
  let timeframe := timeframeArg.getD "1w"
  let res := get_price_history db now d seed_id timeframe
  if res.1.isEmpty then
    ({ status := 200, body := ApiBody.rows [] }, res.2)
  else
    ({ status := 200, body := ApiBody.rows res.1 }, res.2)

/-- The random draws consumed for one seed inside
`MarketService.update_seed_prices`: `r1`, `r2` feed
`calculate_price_change`, `u` feeds `calculate_base_price`, and `vol` is the
`random.randint(500, 10500)` draw. -/
structure TickDraws where
  r1 : ℚ
  r2 : ℚ
  u : ℚ
  vol : Int
deriving DecidableEq, Repr

/-- The observation built for one seed in the `update_seed_prices` loop. -/
def tickRecord (db : DB) (d : TickDraws) (now : Int) (seed : Seed) : SeedPrice :=
  let new_price :=
    match latestPrice db seed.id with
    | some latest => calculate_price_change latest.price d.r1 d.r2 (2/100)
    | none => calculate_base_price d.u
  { seed_id := seed.id, price := new_price, volume := d.vol, recorded_at := now }

/-- The `updates` list built by the `update_seed_prices` loop; the counter
`i` indexes the per-seed random draws. -/
def tickRecords (db : DB) (draws : Nat → TickDraws) (now : Int) :
    List Seed → Nat → List SeedPrice
  | [], _ => []
  | seed :: rest, i => tickRecord db (draws i) now seed :: tickRecords db draws now rest (i + 1)

/-- `MarketService.update_seed_prices`: builds one observation per seed,
appends them all (`bulk_save_objects` + `commit`) and returns
`len(updates)`. -/
def update_seed_prices (db : DB) (draws : Nat → TickDraws) (now : Int) : DB × Nat :=
  let updates := tickRecords db draws now db.seeds 0
  ({ db with prices := db.prices ++ updates }, updates.length)

/-- N successive invocations of `update_seed_prices`, each with its own
draw stream and timestamp. -/
def iterUpdates (db : DB) (drawss : Nat → Nat → TickDraws) (nows : Nat → Int) : Nat → DB
  | 0 => db
  | n + 1 => (update_seed_prices (iterUpdates db drawss nows n) (drawss n) (nows n)).1

/-- The JSON body of a registration request (`request.json`); a missing key
is `none`. -/
structure RegisterData where
  username : Option String
  email : Option String
  password : Option String
  first_name : Option String
  last_name : Option String
deriving DecidableEq, Repr

/-- Python truthiness of `data.get(key)` for a string field: falsy when the
key is missing (None) or its value is the empty string. -/
def truthy : Option String → Bool
  | none => false
  | some s => !(s == "")

/-- Outcome of the register handler: a JSON error envelope with a status, or
201 with the created user. -/
inductive RegisterResult where
  | errorEnvelope (status : Nat) (msg : String)
  | created (status : Nat) (user : User)
deriving DecidableEq, Repr

/-- The `POST /auth/register` handler (src/routes/auth.py, exception-free
path).  `newId` models the id the database assigns; `hash` models
`set_password`. -/
def register (db : DB) (data : RegisterData) (newId : Nat) (hash : String → String) :
    RegisterResult × DB :=
  if !(truthy data.username) || !(truthy data.email) || !(truthy data.password) then
    (RegisterResult.errorEnvelope 400 "Username, email, and password are required", db)
  else if (db.users.find? (fun u => u.username == data.username.getD "")).isSome then
    (RegisterResult.errorEnvelope 400 "Username already exists", db)
  else if (db.users.find? (fun u => u.email == data.email.getD "")).isSome then
    (RegisterResult.errorEnvelope 400 "Email already exists", db)
  else
    let new_user : User :=
      { id := newId
        username := data.username.getD ""
        email := data.email.getD ""
        password_hash := hash (data.password.getD "")
        first_name := data.first_name.getD ""
        last_name := data.last_name.getD "" }
    (RegisterResult.created 201 new_user, { db with users := db.users ++ [new_user] })

/-- The JSON body of a `PUT /seeds/<id>` request; a missing key is `none`.
A JSON `null` price is outside the modelled input space. -/
structure SeedUpdateData where
  name : Option String
  species : Option String
  quantity : Option Int
  price : Option ℚ
  description : Option String
deriving DecidableEq, Repr

/-- The `PUT /seeds/<id>` handler (`update_seed` in src/routes/api.py).
Returns the updated seed (`none` models the 404 of `get_or_404`) together
with the new state.  An observation is inserted exactly when the body has a
`price` key whose value differs from the seed's current price; its volume is
`seed.quantity`, which was already overwritten from the body at that point. -/
def update_seed (db : DB) (id : Nat) (data : SeedUpdateData) (now : Int) :
    Option Seed × DB :=
  match findSeed db id with
  | none => (none, db)
  | some seed =>
    let seed1 : Seed :=
      { seed with
        name := data.name.getD seed.name
        species := match data.species with
          | some v => some v
          | none => seed.species
        quantity := data.quantity.getD seed.quantity }
    let priceStep : Seed × List SeedPrice :=
      match data.price with
      | some v =>
        if some v ≠ seed.price then
          let seed2 : Seed := { seed1 with price := some v }
          (seed2,
           [{ seed_id := seed.id, price := v, volume := seed2.quantity, recorded_at := now }])
        else (seed1, [])
      | none => (seed1, [])
    let seed3 : Seed :=
      { priceStep.1 with
        description := match data.description with
          | some v => some v
          | none => seed.description }
    (some seed3,
     { db with
        seeds := db.seeds.map (fun s => if s.id == id then seed3 else s)
        prices := db.prices ++ priceStep.2 })

/-- A rational is an exact multiple of 0.01, as every price stored in the
NUMERIC(10, 2) column is. -/
def TwoDec (q : ℚ) : Prop := ∃ n : ℤ, q * 100 = (n : ℚ)

lemma round2_ge (x : ℚ) (h : 1/5 ≤ x) : 1/5 ≤ round2 x := by
  unfold round2
  have h20 : (20 : ℤ) ≤ round (x * 100) := by
    rw [round_eq]
    rw [Int.le_floor]
    push_cast
    linarith
  have h20q : (20 : ℚ) ≤ ((round (x * 100) : ℤ) : ℚ) := by exact_mod_cast h20
  linarith

lemma round2_sub_self (a b : ℚ) (ha : TwoDec a) (hb : TwoDec b) :
    round2 (a - b) = a - b := by
  obtain ⟨n, hn⟩ := ha
  obtain ⟨m, hm⟩ := hb
  have hab : (a - b) * 100 = ((n - m : ℤ) : ℚ) := by push_cast; linarith
  unfold round2
  rw [hab, round_intCast]
  push_cast
  linarith

lemma round2_zero : round2 0 = 0 := by
  unfold round2
  norm_num [round_eq]

lemma round1_zero : round1 0 = 0 := by
  unfold round1
  norm_num [round_eq]

/-- Claim C2: for every previous price p > 0 and every draw of the random
source, calculate_price_change returns a value that is at least 0.20 and has
exactly two decimal places, and it is computed as
round(max(0.20, p + p * change), 2) where
change = (r2 - 0.5) * volatility + trend * 0.02 with trend = +1 or -1
according to the draw r1. -/
theorem calculate_price_change_floor_two_decimals
    (p r1 r2 volatility : ℚ) (_hp : 0 < p) :
    1/5 ≤ calculate_price_change p r1 r2 volatility ∧
    (∃ n : ℤ, calculate_price_change p r1 r2 volatility = (n : ℚ) / 100) ∧
    calculate_price_change p r1 r2 volatility =
      round2 (max (1/5)
        (p + p * ((r2 - 1/2) * volatility + (if 1/2 < r1 then 1 else -1) * (2/100)))) := by
  refine ⟨round2_ge _ (le_max_left _ _), ⟨_, rfl⟩, rfl⟩

theorem calculate_price_change_floor_two_decimals_witness :
    (0 : ℚ) < 5 ∧ 1/5 ≤ calculate_price_change 5 1 0 (2/100) :=
  ⟨by norm_num, (calculate_price_change_floor_two_decimals 5 1 0 (2/100) (by norm_num)).1⟩

lemma latestPrice_mem (db : DB) (sid : Nat) (lp : SeedPrice)
    (h : latestPrice db sid = some lp) : lp ∈ db.prices := by
  unfold latestPrice at h
  have h1 : lp ∈ sortedDesc db sid := List.mem_of_mem_head? (Option.mem_def.mpr h)
  unfold sortedDesc at h1
  have h2 : lp ∈ pricesFor db sid := (List.mem_insertionSort byTimeDesc).mp h1
  unfold pricesFor at h2
  exact (List.mem_filter.mp h2).1

lemma previousPrice_mem (db : DB) (sid : Nat) (q : SeedPrice)
    (h : previousPrice db sid = some q) : q ∈ db.prices := by
  unfold previousPrice at h
  have h1 : q ∈ sortedDesc db sid := List.get?_mem h
  unfold sortedDesc at h1
  have h2 : q ∈ pricesFor db sid := (List.mem_insertionSort byTimeDesc).mp h1
  unfold pricesFor at h2
  exact (List.mem_filter.mp h2).1

lemma previousPrice_eq_none (db : DB) (sid : Nat)
    (h : (pricesFor db sid).length = 1) : previousPrice db sid = none := by
  unfold previousPrice
  rw [List.get?_eq_none]
  unfold sortedDesc
  rw [List.length_insertionSort, h]

/-- Claim C5: for every seed included in get_market_summary, change equals
latest.price minus previous.price, where previous defaults to latest.price
when no second observation exists (yielding change = 0 and changePercent = 0
for a seed with a single observation), and changePercent equals
change / previous.price * 100 rounded to 1 decimal, or 0 when
previous.price ≤ 0.  Stored prices live in a NUMERIC(10, 2) column, which
the TwoDec hypothesis expresses. -/
theorem market_summary_change_formula
    (db : DB) (seed : Seed) (lp : SeedPrice)
    (hdec : ∀ p ∈ db.prices, TwoDec p.price)
    (hlp : latestPrice db seed.id = some lp) :
    (summaryEntry db seed).isSome ∧
    ∀ e, summaryEntry db seed = some e →
      e.change = lp.price - ((previousPrice db seed.id).map SeedPrice.price).getD lp.price ∧
      e.changePercent =
        (if 0 < ((previousPrice db seed.id).map SeedPrice.price).getD lp.price then
          round1 (e.change / ((previousPrice db seed.id).map SeedPrice.price).getD lp.price * 100)
        else 0) ∧
      ((pricesFor db seed.id).length = 1 → e.change = 0 ∧ e.changePercent = 0) := by
  have hlpmem : lp ∈ db.prices := latestPrice_mem db seed.id lp hlp
  have hlpdec : TwoDec lp.price := hdec lp hlpmem
  have hprevdec :
      TwoDec (((previousPrice db seed.id).map SeedPrice.price).getD lp.price) := by
    cases hpp : previousPrice db seed.id with
    | none => simpa using hlpdec
    | some q => simpa using hdec q (previousPrice_mem db seed.id q hpp)
  have hchange :
      round2 (lp.price - ((previousPrice db seed.id).map SeedPrice.price).getD lp.price) =
        lp.price - ((previousPrice db seed.id).map SeedPrice.price).getD lp.price :=
    round2_sub_self _ _ hlpdec hprevdec
  have hse : summaryEntry db seed = some
      { id := seed.id
        name := seed.name
        species := seed.species
        currentPrice := lp.price
        previousPrice := ((previousPrice db seed.id).map SeedPrice.price).getD lp.price
        change :=
          round2 (lp.price - ((previousPrice db seed.id).map SeedPrice.price).getD lp.price)
        changePercent :=
          if 0 < ((previousPrice db seed.id).map SeedPrice.price).getD lp.price then
            round1
              (round2 (lp.price - ((previousPrice db seed.id).map SeedPrice.price).getD lp.price) /
                ((previousPrice db seed.id).map SeedPrice.price).getD lp.price * 100)
          else 0
        volume := lp.volume
        description := seed.description } := by
    simp only [summaryEntry, hlp]
  refine ⟨by rw [hse]; rfl, ?_⟩
  intro e he
  rw [hse] at he
  injection he with he'
  subst he'
  refine ⟨hchange, rfl, ?_⟩
  intro hlen
  have hnone : previousPrice db seed.id = none := previousPrice_eq_none db seed.id hlen
  have hz : round2 (lp.price - lp.price) = 0 := by rw [sub_self]; exact round2_zero
  constructor
  · simp only [hnone, Option.map_none', Option.getD_none]
    exact hz
  · simp only [hnone, Option.map_none', Option.getD_none]
    rw [hz]
    split
    · rw [zero_div, zero_mul]; exact round1_zero
    · rfl

def wSeedC5 : Seed :=
  { id := 1, name := "Basil", species := none, quantity := 10, price := some 3,
    description := none }

def wDBC5 : DB :=
  { seeds := [wSeedC5]
    prices := [{ seed_id := 1, price := 3, volume := 100, recorded_at := 10 }]
    users := [] }

theorem market_summary_change_formula_witness :
    ∃ e, summaryEntry wDBC5 wSeedC5 = some e ∧ e.change = 0 ∧ e.changePercent = 0 := by
  obtain ⟨hs, hall⟩ :=
    market_summary_change_formula wDBC5 wSeedC5
      { seed_id := 1, price := 3, volume := 100, recorded_at := 10 }
      (by intro p hp
          simp only [wDBC5, List.mem_singleton] at hp
          exact ⟨300, by rw [hp]; norm_num⟩)
      (by decide)
  cases hse : summaryEntry wDBC5 wSeedC5 with
  | none => rw [hse] at hs; exact absurd hs (by simp)
  | some e =>
    obtain ⟨_, _, hone⟩ := hall e hse
    exact ⟨e, rfl, hone (by decide)⟩

lemma timeframe_days_pos (tf : String) : 1 ≤ timeframe_days tf := by
  unfold timeframe_days
  repeat' split
  all_goals norm_num

/-- Claim C3: for every seed and every timeframe string, get_price_history
maps the timeframe through the fixed table 1d:1, 1w:7, 1m:30, 3m:90, 1y:365
with any unknown value (and the default) falling back to 7 days, and, when
matching rows exist, returns exactly the observations of that seed with
recorded timestamp at least now minus that many days, ordered ascending
(non-decreasing) by recorded timestamp, without modifying the state. -/
theorem get_price_history_window_and_order
    (db : DB) (now : Int) (d : SynthDraws) (sid : Nat) (tf : String) (seed : Seed)
    (hseed : findSeed db sid = some seed)
    (hne : matchingPrices db now sid tf ≠ []) :
    (timeframe_days "1d" = 1 ∧ timeframe_days "1w" = 7 ∧ timeframe_days "1m" = 30 ∧
      timeframe_days "3m" = 90 ∧ timeframe_days "1y" = 365) ∧
    (tf ≠ "1d" → tf ≠ "1w" → tf ≠ "1m" → tf ≠ "3m" → tf ≠ "1y" → timeframe_days tf = 7) ∧
    (get_price_history db now d sid tf).1 = matchingPrices db now sid tf ∧
    (get_price_history db now d sid tf).2 = db ∧
    (get_price_history db now d sid tf).1.Perm
      (db.prices.filter
        (fun p => p.seed_id == sid &&
          decide (now - (timeframe_days tf : Int) * secondsPerDay ≤ p.recorded_at))) ∧
    List.Sorted byTimeAsc (get_price_history db now d sid tf).1 ∧
    ∀ p ∈ (get_price_history db now d sid tf).1,
      p.seed_id = sid ∧ now - (timeframe_days tf : Int) * secondsPerDay ≤ p.recorded_at := by
  have hie : (matchingPrices db now sid tf).isEmpty = false := by
    cases h : matchingPrices db now sid tf with
    | nil => exact absurd h hne
    | cons a l => rfl
  have hres : get_price_history db now d sid tf = (matchingPrices db now sid tf, db) := by
    unfold get_price_history
    rw [hseed]
    simp [hie]
  refine ⟨⟨by decide, by decide, by decide, by decide, by decide⟩, ?_, ?_, ?_, ?_, ?_, ?_⟩
  · intro h1 h2 h3 h4 h5
    unfold timeframe_days
    rw [if_neg h1, if_neg h2, if_neg h3, if_neg h4, if_neg h5]
  · rw [hres]
  · rw [hres]
  · rw [hres]
    unfold matchingPrices
    exact List.perm_insertionSort byTimeAsc _
  · rw [hres]
    unfold matchingPrices
    exact List.sorted_insertionSort byTimeAsc _
  · intro p hp
    rw [hres] at hp
    unfold matchingPrices at hp
    have hp2 := (List.mem_insertionSort byTimeAsc).mp hp
    simp only [List.mem_filter, Bool.and_eq_true, beq_iff_eq, decide_eq_true_eq] at hp2
    exact ⟨hp2.2.1, hp2.2.2⟩

def wSeedC3 : Seed :=
  { id := 1, name := "Kale", species := none, quantity := 5, price := some 2,
    description := none }

def wDBC3 : DB :=
  { seeds := [wSeedC3]
    prices := [{ seed_id := 1, price := 2, volume := 50, recorded_at := 100 },
               { seed_id := 1, price := 3, volume := 60, recorded_at := 50 }]
    users := [] }

theorem get_price_history_window_and_order_witness :
    List.Sorted byTimeAsc (get_price_history wDBC3 100 ⟨3, 600⟩ 1 "1w").1 ∧
    (get_price_history wDBC3 100 ⟨3, 600⟩ 1 "1w").2 = wDBC3 := by
  obtain ⟨-, -, -, hdb, -, hsorted, -⟩ :=
    get_price_history_window_and_order wDBC3 100 ⟨3, 600⟩ 1 "1w" wSeedC3
      (by decide) (by decide)
  exact ⟨hsorted, hdb⟩

/-- Claim C1, amended: if the primary query finds zero matching rows for an
existing seed, get_price_history synthesizes one placeholder observation
whose price is the seed's stored price, or a freshly generated base price if
the stored price is absent or zero (Python `or` treats 0 as falsy), whose
volume is the [500, 1000] draw and whose timestamp is now; it persists the
observation, returns it as a single-element result, and a second identical
call returns at least one observation rather than zero. -/
theorem get_price_history_synthesizes
    (db : DB) (now : Int) (d : SynthDraws) (sid : Nat) (tf : String) (seed : Seed)
    (hseed : findSeed db sid = some seed)
    (hempty : matchingPrices db now sid tf = [])
    (hvol : 500 ≤ d.vol ∧ d.vol ≤ 1000) :
    (get_price_history db now d sid tf).1 =
      [{ seed_id := sid, price := synthPrice seed d.u, volume := d.vol, recorded_at := now }] ∧
    (get_price_history db now d sid tf).2 =
      { db with prices := db.prices ++
          [{ seed_id := sid, price := synthPrice seed d.u, volume := d.vol,
             recorded_at := now }] } ∧
    (∀ v, seed.price = some v → v ≠ 0 → synthPrice seed d.u = v) ∧
    (seed.price = none → synthPrice seed d.u = calculate_base_price d.u) ∧
    (seed.price = some 0 → synthPrice seed d.u = calculate_base_price d.u) ∧
    500 ≤ d.vol ∧ d.vol ≤ 1000 ∧
    (get_price_history (get_price_history db now d sid tf).2 now d sid tf).1 ≠ [] := by
  have hie : (matchingPrices db now sid tf).isEmpty = true := by rw [hempty]; rfl
  have hres : get_price_history db now d sid tf =
      ([{ seed_id := sid, price := synthPrice seed d.u, volume := d.vol, recorded_at := now }],
       { db with prices := db.prices ++
          [{ seed_id := sid, price := synthPrice seed d.u, volume := d.vol,
             recorded_at := now }] }) := by
    unfold get_price_history
    rw [hseed]
    simp [hie]
  have hfil : db.prices.filter
      (fun p => p.seed_id == sid &&
        decide (now - (timeframe_days tf : Int) * secondsPerDay ≤ p.recorded_at)) = [] := by
    have hlen := congrArg List.length hempty
    unfold matchingPrices at hlen
    rw [List.length_insertionSort] at hlen
    exact List.length_eq_zero.mp hlen
  have hcut : now - (timeframe_days tf : Int) * secondsPerDay ≤ now :=
    sub_le_self now
      (mul_nonneg (Int.natCast_nonneg _) (by norm_num [secondsPerDay]))
  have hm2 : matchingPrices (get_price_history db now d sid tf).2 now sid tf =
      [{ seed_id := sid, price := synthPrice seed d.u, volume := d.vol, recorded_at := now }] := by
    rw [hres]
    simp only [matchingPrices]
    rw [List.filter_append, hfil]
    have hcut2 : now ≤ now + (timeframe_days tf : Int) * secondsPerDay := by linarith
    simp [hcut, hcut2, List.insertionSort, List.orderedInsert]
  refine ⟨by rw [hres], by rw [hres], ?_, ?_, ?_, hvol.1, hvol.2, ?_⟩
  · intro v hv hvne
    unfold synthPrice
    rw [hv]
    simp [hvne]
  · intro hv
    unfold synthPrice
    rw [hv]
  · intro hv
    unfold synthPrice
    rw [hv]
    simp
  · have hseed2 : findSeed (get_price_history db now d sid tf).2 sid = some seed := by
      rw [hres]; exact hseed
    generalize hdb2 : (get_price_history db now d sid tf).2 = db2 at hseed2 hm2 ⊢
    have hkeeps : get_price_history db2 now d sid tf = (matchingPrices db2 now sid tf, db2) := by
      unfold get_price_history
      rw [hseed2]
      simp [hm2]
    rw [hkeeps, hm2]
    simp

def wSeedC1 : Seed :=
  { id := 2, name := "Mint", species := none, quantity := 4, price := some 3,
    description := none }

def wDBC1 : DB := { seeds := [wSeedC1], prices := [], users := [] }

theorem get_price_history_synthesizes_witness :
    (get_price_history wDBC1 1000 ⟨4, 700⟩ 2 "1m").1 =
      [{ seed_id := 2, price := 3, volume := 700, recorded_at := 1000 }] ∧
    (get_price_history (get_price_history wDBC1 1000 ⟨4, 700⟩ 2 "1m").2 1000 ⟨4, 700⟩ 2
        "1m").1 ≠ [] := by
  obtain ⟨h1, -, hp, -, -, -, -, h2⟩ :=
    get_price_history_synthesizes wDBC1 1000 ⟨4, 700⟩ 2 "1m" wSeedC1
      (by decide) (by decide) (by decide)
  have hv : synthPrice wSeedC1 (4 : ℚ) = 3 := hp 3 rfl (by norm_num)
  rw [hv] at h1
  exact ⟨h1, h2⟩

def cexSeedC1 : Seed :=
  { id := 1, name := "Tomato", species := none, quantity := 0, price := some 0,
    description := none }

def cexDBC1 : DB := { seeds := [cexSeedC1], prices := [], users := [] }

/-- Claim C1 counterexample: a seed whose stored price is present but equal
to 0 gets a placeholder observation priced by calculate_base_price, not by
the stored price, because Python `seed.price or ...` treats 0 as falsy; with
the base-price draw 3, the synthesized observation has price 3 while the
stored price is 0, refuting "price equal to the seed's stored price (or a
freshly generated base price if the stored price is absent)". -/
theorem get_price_history_stored_zero_cex :
    cexSeedC1.price = some 0 ∧
    findSeed cexDBC1 1 = some cexSeedC1 ∧
    (get_price_history cexDBC1 0 ⟨3, 700⟩ 1 "1w").1.map SeedPrice.price = [3] ∧
    (3 : ℚ) ≠ 0 := by
  have h3 : calculate_base_price (3 : ℚ) = 3 := by
    norm_num [calculate_base_price, round2, round_eq]
  refine ⟨rfl, rfl, ?_, by norm_num⟩
  simp [get_price_history, findSeed, cexDBC1, cexSeedC1, matchingPrices, synthPrice, h3]

/-- Claim C6: for every seed id that does not exist, get_price_history
returns an empty result without touching the state, and the
GET /seeds/<id>/prices route answers HTTP 200 with an empty JSON array
rather than a 404 or an error payload. -/
theorem get_price_history_missing_seed
    (db : DB) (now : Int) (d : SynthDraws) (sid : Nat) (tf : String) (tfArg : Option String)
    (hseed : findSeed db sid = none) :
    get_price_history db now d sid tf = ([], db) ∧
    get_seed_prices db now d sid tfArg = ({ status := 200, body := ApiBody.rows [] }, db) ∧
    ∀ msg, (get_seed_prices db now d sid tfArg).1.body ≠ ApiBody.errorMsg msg := by
  have h1 : ∀ tf2, get_price_history db now d sid tf2 = ([], db) := by
    intro tf2
    unfold get_price_history
    rw [hseed]
  have h2 : get_seed_prices db now d sid tfArg = ({ status := 200, body := ApiBody.rows [] }, db) := by
    simp [get_seed_prices, h1]
  refine ⟨h1 tf, h2, ?_⟩
  intro msg
  rw [h2]
  simp

def emptyDB : DB := { seeds := [], prices := [], users := [] }

theorem get_price_history_missing_seed_witness :
    get_price_history emptyDB 0 ⟨3, 600⟩ 5 "1w" = ([], emptyDB) ∧
    get_seed_prices emptyDB 0 ⟨3, 600⟩ 5 none =
      ({ status := 200, body := ApiBody.rows [] }, emptyDB) := by
  obtain ⟨a, b, -⟩ :=
    get_price_history_missing_seed emptyDB 0 ⟨3, 600⟩ 5 "1w" none (by decide)
  exact ⟨a, b⟩

/-- Number of observations the log holds for one seed id. -/
def countObs (db : DB) (sid : Nat) : Nat :=
  (db.prices.filter (fun p => p.seed_id == sid)).length

lemma tickRecords_length (db : DB) (draws : Nat → TickDraws) (now : Int) :
    ∀ (l : List Seed) (i : Nat), (tickRecords db draws now l i).length = l.length := by
  intro l
  induction l with
  | nil => intro i; rfl
  | cons s rest ih => intro i; simp [tickRecords, ih]

lemma tickRecords_countP (db : DB) (draws : Nat → TickDraws) (now : Int) (sid : Nat) :
    ∀ (l : List Seed) (i : Nat),
      (tickRecords db draws now l i).countP (fun p => p.seed_id == sid) =
        l.countP (fun s => s.id == sid) := by
  intro l
  induction l with
  | nil => intro i; rfl
  | cons s rest ih =>
    intro i
    simp only [tickRecords, List.countP_cons, ih]
    rfl

lemma tickRecords_get (db : DB) (draws : Nat → TickDraws) (now : Int) :
    ∀ (l : List Seed) (i j : Nat),
      (tickRecords db draws now l i).get? j =
        (l.get? j).map (fun s => tickRecord db (draws (i + j)) now s) := by
  intro l
  induction l with
  | nil => intro i j; simp [tickRecords]
  | cons s rest ih =>
    intro i j
    cases j with
    | zero => simp [tickRecords]
    | succ j2 =>
      simp only [tickRecords, List.get?_cons_succ, ih]
      have hidx : i + 1 + j2 = i + (j2 + 1) := by omega
      rw [hidx]

lemma tickRecords_mem_fields (db : DB) (draws : Nat → TickDraws) (now : Int)
    (hvol : ∀ i, 500 ≤ (draws i).vol ∧ (draws i).vol ≤ 10500) :
    ∀ (l : List Seed) (i : Nat) (p : SeedPrice), p ∈ tickRecords db draws now l i →
      p.recorded_at = now ∧ 500 ≤ p.volume ∧ p.volume ≤ 10500 := by
  intro l
  induction l with
  | nil => intro i p hp; simp [tickRecords] at hp
  | cons s rest ih =>
    intro i p hp
    rw [tickRecords, List.mem_cons] at hp
    rcases hp with h | h
    · subst h
      exact ⟨rfl, (hvol i).1, (hvol i).2⟩
    · exact ih (i + 1) p h

lemma update_countObs (db : DB) (draws : Nat → TickDraws) (now : Int) (sid : Nat) :
    countObs (update_seed_prices db draws now).1 sid =
      countObs db sid + db.seeds.countP (fun s => s.id == sid) := by
  show ((db.prices ++ tickRecords db draws now db.seeds 0).filter
      (fun p => p.seed_id == sid)).length = _
  unfold countObs
  rw [List.filter_append, List.length_append, ← List.countP_eq_length_filter,
      ← List.countP_eq_length_filter, tickRecords_countP]

lemma iterUpdates_seeds (db : DB) (drawss : Nat → Nat → TickDraws) (nows : Nat → Int) :
    ∀ n, (iterUpdates db drawss nows n).seeds = db.seeds := by
  intro n
  induction n with
  | zero => rfl
  | succ n ih =>
    show (update_seed_prices (iterUpdates db drawss nows n) (drawss n) (nows n)).1.seeds =
      db.seeds
    rw [← ih]
    rfl

lemma iterUpdates_countObs (db : DB) (drawss : Nat → Nat → TickDraws) (nows : Nat → Int)
    (sid : Nat) :
    ∀ n, countObs (iterUpdates db drawss nows n) sid =
      countObs db sid + n * db.seeds.countP (fun s => s.id == sid) := by
  intro n
  induction n with
  | zero => simp [iterUpdates]
  | succ n ih =>
    show countObs (update_seed_prices (iterUpdates db drawss nows n) (drawss n) (nows n)).1 sid = _
    rw [update_countObs, ih, iterUpdates_seeds]
    ring

/-- Claim C4: each invocation of update_seed_prices appends exactly one new
observation per existing seed, priced by calculate_price_change of the
seed's latest observation when one exists and by calculate_base_price
otherwise, with a [500, 10500] volume draw and the current timestamp, and
returns the count of seeds updated; N invocations append exactly N
observations per pre-existing seed. -/
theorem update_seed_prices_one_observation_per_seed
    (db : DB) (draws : Nat → TickDraws) (drawss : Nat → Nat → TickDraws)
    (nows : Nat → Int) (now : Int) (N : Nat) (sid : Nat)
    (hvol : ∀ i, 500 ≤ (draws i).vol ∧ (draws i).vol ≤ 10500) :
    (update_seed_prices db draws now).2 = db.seeds.length ∧
    (update_seed_prices db draws now).1.prices =
      db.prices ++ tickRecords db draws now db.seeds 0 ∧
    (∀ i s, db.seeds.get? i = some s →
      (tickRecords db draws now db.seeds 0).get? i = some (tickRecord db (draws i) now s)) ∧
    (∀ p ∈ tickRecords db draws now db.seeds 0,
      p.recorded_at = now ∧ 500 ≤ p.volume ∧ p.volume ≤ 10500) ∧
    countObs (update_seed_prices db draws now).1 sid =
      countObs db sid + db.seeds.countP (fun s => s.id == sid) ∧
    countObs (iterUpdates db drawss nows N) sid =
      countObs db sid + N * db.seeds.countP (fun s => s.id == sid) := by
  refine ⟨tickRecords_length db draws now db.seeds 0, rfl, ?_, ?_, ?_, ?_⟩
  · intro i s hget
    rw [tickRecords_get, hget, Nat.zero_add]
    rfl
  · exact fun p hp => tickRecords_mem_fields db draws now hvol db.seeds 0 p hp
  · exact update_countObs db draws now sid
  · exact iterUpdates_countObs db drawss nows sid N

def wSeedC4 : Seed :=
  { id := 1, name := "Corn", species := none, quantity := 8, price := some 4,
    description := none }

def wDBC4 : DB := { seeds := [wSeedC4], prices := [], users := [] }

theorem update_seed_prices_one_observation_per_seed_witness :
    (update_seed_prices wDBC4 (fun _ => ⟨1, 1, 3, 600⟩) 5).2 = wDBC4.seeds.length ∧
    countObs (iterUpdates wDBC4 (fun _ _ => ⟨1, 1, 3, 600⟩) (fun n => (n : Int)) 2) 1 =
      countObs wDBC4 1 + 2 * wDBC4.seeds.countP (fun s => s.id == 1) := by
  obtain ⟨h1, -, -, -, -, h2⟩ :=
    update_seed_prices_one_observation_per_seed wDBC4 (fun _ => ⟨1, 1, 3, 600⟩)
      (fun _ _ => ⟨1, 1, 3, 600⟩) (fun n => (n : Int)) 5 2 1
      (by intro i
          show (500 : Int) ≤ 600 ∧ (600 : Int) ≤ 10500
          decide)
  exact ⟨h1, h2⟩

/-- Claim C7: update_seed_prices never modifies any field of any Seed row
(each seed's own price attribute stays as last seen) and leaves users
untouched; it only appends rows to the price-observation log. -/
theorem update_seed_prices_frame (db : DB) (draws : Nat → TickDraws) (now : Int) :
    (update_seed_prices db draws now).1.seeds = db.seeds ∧
    (update_seed_prices db draws now).1.users = db.users ∧
    ∃ appended, (update_seed_prices db draws now).1.prices = db.prices ++ appended :=
  ⟨rfl, rfl, ⟨tickRecords db draws now db.seeds 0, rfl⟩⟩

/-- Claim C8: for every registration request whose username already belongs
to an existing user, register returns HTTP 400 with a JSON error envelope
and the set of user rows is unchanged. -/
theorem register_duplicate_username
    (db : DB) (data : RegisterData) (newId : Nat) (hash : String → String)
    (uname : String) (u : User)
    (hdata : data.username = some uname) (hu : u ∈ db.users) (hname : u.username = uname) :
    (∃ msg, (register db data newId hash).1 = RegisterResult.errorEnvelope 400 msg) ∧
    (register db data newId hash).2 = db := by
  by_cases hc : (!(truthy data.username) || !(truthy data.email) || !(truthy data.password)) = true
  · unfold register
    rw [if_pos hc]
    exact ⟨⟨_, rfl⟩, rfl⟩
  · have hfind : (db.users.find? (fun x => x.username == data.username.getD "")).isSome = true := by
      rw [List.find?_isSome]
      refine ⟨u, hu, ?_⟩
      rw [hdata]
      simp [hname]
    unfold register
    rw [if_neg hc, if_pos hfind]
    exact ⟨⟨_, rfl⟩, rfl⟩

def wUserC8 : User :=
  { id := 1, username := "bob", email := "bob@x.org", password_hash := "h",
    first_name := "", last_name := "" }

def wDBC8 : DB := { seeds := [], prices := [], users := [wUserC8] }

def wDataC8 : RegisterData :=
  { username := some "bob", email := some "new@x.org", password := some "pw",
    first_name := none, last_name := none }

theorem register_duplicate_username_witness :
    (∃ msg, (register wDBC8 wDataC8 2 id).1 = RegisterResult.errorEnvelope 400 msg) ∧
    (register wDBC8 wDataC8 2 id).2 = wDBC8 :=
  register_duplicate_username wDBC8 wDataC8 2 id "bob" wUserC8 rfl (by decide) rfl

lemma latestPrice_eq_none_iff (db : DB) (sid : Nat) :
    latestPrice db sid = none ↔ pricesFor db sid = [] := by
  unfold latestPrice
  rw [List.head?_eq_none_iff]
  unfold sortedDesc
  constructor
  · intro h
    have hlen := congrArg List.length h
    rw [List.length_insertionSort] at hlen
    exact List.length_eq_zero.mp hlen
  · intro h
    rw [h]
    rfl

lemma summaryEntry_eq_none_iff (db : DB) (s : Seed) :
    summaryEntry db s = none ↔ pricesFor db s.id = [] := by
  rw [← latestPrice_eq_none_iff]
  unfold summaryEntry
  cases latestPrice db s.id with
  | none => simp
  | some lp => simp

lemma summaryEntry_fields (db : DB) (s : Seed) (lp : SeedPrice)
    (hlp : latestPrice db s.id = some lp) :
    ∃ e, summaryEntry db s = some e ∧ e.volume = lp.volume ∧ e.currentPrice = lp.price := by
  unfold summaryEntry
  rw [hlp]
  exact ⟨_, rfl, rfl, rfl⟩

/-- The volume one seed contributes to totalVolume: its latest observation's
volume, or nothing when it has no observation. -/
def observedVolume (db : DB) (s : Seed) : Int :=
  match latestPrice db s.id with
  | some lp => lp.volume
  | none => 0

/-- The amount one seed contributes to marketCap: its latest price times the
fixed 1000-unit assumption, or nothing when it has no observation. -/
def observedCap (db : DB) (s : Seed) : ℚ :=
  match latestPrice db s.id with
  | some lp => lp.price * 1000
  | none => 0

lemma summary_sums (db : DB) :
    ∀ l : List Seed,
      ((l.filterMap (summaryEntry db)).map (fun e => e.volume)).sum =
        (l.map (observedVolume db)).sum ∧
      ((l.filterMap (summaryEntry db)).map (fun e => e.currentPrice * 1000)).sum =
        (l.map (observedCap db)).sum ∧
      (l.filterMap (summaryEntry db)).length =
        (l.filter (fun t => !(pricesFor db t.id).isEmpty)).length := by
  intro l
  induction l with
  | nil => exact ⟨rfl, rfl, rfl⟩
  | cons s rest ih =>
    obtain ⟨ih1, ih2, ih3⟩ := ih
    cases hlp : latestPrice db s.id with
    | none =>
      have hnone : summaryEntry db s = none := by unfold summaryEntry; rw [hlp]
      have hpf : pricesFor db s.id = [] := (latestPrice_eq_none_iff db s.id).mp hlp
      refine ⟨?_, ?_, ?_⟩
      · simp [List.filterMap_cons, hnone, observedVolume, hlp, ih1]
      · simp [List.filterMap_cons, hnone, observedCap, hlp, ih2]
      · simp [List.filterMap_cons, hnone, List.filter_cons, hpf, ih3]
    | some lp =>
      obtain ⟨e, he, hv, hc⟩ := summaryEntry_fields db s lp hlp
      have hpf : pricesFor db s.id ≠ [] := by
        intro h
        rw [← latestPrice_eq_none_iff, hlp] at h
        exact Option.noConfusion h
      have hpf2 : (pricesFor db s.id).isEmpty = false := by
        cases hx : pricesFor db s.id with
        | nil => exact absurd hx hpf
        | cons a b => rfl
      refine ⟨?_, ?_, ?_⟩
      · simp [List.filterMap_cons, he, hv, observedVolume, hlp, ih1]
      · simp [List.filterMap_cons, he, hc, observedCap, hlp, ih2]
      · simp [List.filterMap_cons, he, List.filter_cons, hpf2, ih3]

/-- Claim C9: in the result of get_market_summary, marketStats.seedCount
equals the total number of Seed rows, while the seeds array, totalVolume and
marketCap aggregate only over seeds that have at least one observation; in a
state containing a seed with no observations, seedCount strictly exceeds the
seeds array's length and that seed contributes nothing to either
aggregate. -/
theorem market_summary_aggregates_observed_only
    (db : DB) (s : Seed) (hs : s ∈ db.seeds) (hno : pricesFor db s.id = []) :
    (get_market_summary db).marketStats.seedCount = db.seeds.length ∧
    (get_market_summary db).seeds.length =
      (db.seeds.filter (fun t => !(pricesFor db t.id).isEmpty)).length ∧
    (get_market_summary db).seeds.length < (get_market_summary db).marketStats.seedCount ∧
    (get_market_summary db).marketStats.totalVolume = (db.seeds.map (observedVolume db)).sum ∧
    (get_market_summary db).marketStats.marketCap = (db.seeds.map (observedCap db)).sum ∧
    summaryEntry db s = none ∧ observedVolume db s = 0 ∧ observedCap db s = 0 := by
  obtain ⟨h1, h2, h3⟩ := summary_sums db db.seeds
  have hlpnone : latestPrice db s.id = none := (latestPrice_eq_none_iff db s.id).mpr hno
  refine ⟨rfl, h3, ?_, h1, h2, (summaryEntry_eq_none_iff db s).mpr hno, ?_, ?_⟩
  · show (db.seeds.filterMap (summaryEntry db)).length < db.seeds.length
    rw [h3]
    exact List.length_filter_lt_length_iff_exists.mpr ⟨s, hs, by simp [hno]⟩
  · unfold observedVolume
    rw [hlpnone]
  · unfold observedCap
    rw [hlpnone]

def wSeedC9a : Seed :=
  { id := 1, name := "Bean", species := none, quantity := 5, price := some 2,
    description := none }

def wSeedC9b : Seed :=
  { id := 2, name := "Okra", species := none, quantity := 5, price := none,
    description := none }

def wDBC9 : DB :=
  { seeds := [wSeedC9a, wSeedC9b]
    prices := [{ seed_id := 1, price := 2, volume := 50, recorded_at := 10 }]
    users := [] }

theorem market_summary_aggregates_observed_only_witness :
    (get_market_summary wDBC9).marketStats.seedCount = wDBC9.seeds.length ∧
    (get_market_summary wDBC9).seeds.length < (get_market_summary wDBC9).marketStats.seedCount := by
  obtain ⟨a, -, c, -⟩ :=
    market_summary_aggregates_observed_only wDBC9 wSeedC9b (by decide) (by decide)
  exact ⟨a, c⟩

/-- Claim C10: for every PUT /seeds/<id> request on an existing seed, a new
price observation (with volume equal to the seed's quantity as updated by
the request and timestamp now) is appended if and only if the body contains
a price key whose value differs from the seed's current price; otherwise the
observation log is unchanged, while the other provided fields (name,
species, quantity, description) are still updated. -/
theorem update_seed_appends_iff_price_differs
    (db : DB) (sid : Nat) (data : SeedUpdateData) (now : Int) (seed : Seed)
    (hseed : findSeed db sid = some seed) :
    (∀ v, data.price = some v → some v ≠ seed.price →
      (update_seed db sid data now).2.prices =
        db.prices ++ [{ seed_id := seed.id, price := v,
                        volume := data.quantity.getD seed.quantity, recorded_at := now }]) ∧
    (∀ v, data.price = some v → some v = seed.price →
      (update_seed db sid data now).2.prices = db.prices) ∧
    (data.price = none → (update_seed db sid data now).2.prices = db.prices) ∧
    (update_seed db sid data now).1.map Seed.name = some (data.name.getD seed.name) ∧
    (update_seed db sid data now).1.map Seed.quantity =
      some (data.quantity.getD seed.quantity) ∧
    (update_seed db sid data now).1.map Seed.species =
      some (match data.species with | some v => some v | none => seed.species) ∧
    (update_seed db sid data now).1.map Seed.description =
      some (match data.description with | some v => some v | none => seed.description) := by
  refine ⟨?_, ?_, ?_, ?_, ?_, ?_, ?_⟩
  · intro v hv hne
    simp [update_seed, hseed, hv, hne]
  · intro v hv heq
    have hcond : ¬(some v ≠ seed.price) := fun hne => hne heq
    simp only [update_seed, hseed, hv]
    simp [hcond]
  · intro hn
    simp [update_seed, hseed, hn]
  all_goals
    rcases hp : data.price with _ | v
    · simp [update_seed, hseed, hp]
    · simp only [update_seed, hseed, hp]
      split
      all_goals rfl

def wSeedC10 : Seed :=
  { id := 1, name := "Pea", species := none, quantity := 7, price := some 2,
    description := none }

def wDBC10 : DB := { seeds := [wSeedC10], prices := [], users := [] }

def wDataC10 : SeedUpdateData :=
  { name := none, species := none, quantity := some 9, price := some 3,
    description := none }

def wDataC10e : SeedUpdateData :=
  { name := none, species := none, quantity := none, price := none, description := none }

theorem update_seed_appends_iff_price_differs_witness :
    (update_seed wDBC10 1 wDataC10 77).2.prices =
      wDBC10.prices ++ [{ seed_id := 1, price := 3, volume := 9, recorded_at := 77 }] ∧
    (update_seed wDBC10 1 wDataC10e 77).2.prices = wDBC10.prices := by
  obtain ⟨happ, -, -, -, -, -, -⟩ :=
    update_seed_appends_iff_price_differs wDBC10 1 wDataC10 77 wSeedC10 (by decide)
  obtain ⟨-, -, hnone, -, -, -, -⟩ :=
    update_seed_appends_iff_price_differs wDBC10 1 wDataC10e 77 wSeedC10 (by decide)
  refine ⟨?_, hnone rfl⟩
  have h := happ 3 rfl (by decide)
  simpa [wDataC10, wSeedC10] using h

end SeedMart
